import Mathlib

/-!
Shallow embedding of `fetch_data.py` (market-dashboard data collector).

Strings are modelled at the character-list level so that every operation
computes by structural recursion.  Python `float` values are modelled as
exact rationals (`ℚ`); Python's builtin decimal-literal parsing and
banker's rounding are modelled over `ℚ`.  Remote calls are modelled as
`Except Unit`-valued inputs: `.error ()` stands for a raised transport or
parse exception, `.ok v` for a successful response.
-/

/-- Python `str.strip()` at the character level (whitespace model:
`Char.isWhitespace`). -/
def trimChars (l : List Char) : List Char :=
  ((l.dropWhile Char.isWhitespace).reverse.dropWhile Char.isWhitespace).reverse

/-- Python `s.strip()` on strings. -/
def pyStrip (s : String) : String :=
  String.mk (trimChars s.data)

/-- The character set of `lstrip("0123456789.-•·) ")` used at lines 172 and
282 of `fetch_data.py` to remove enumeration prefixes. -/
def enumChars : List Char :=
  ['0', '1', '2', '3', '4', '5', '6', '7', '8', '9', '.', '-', '•', '·', ')', ' ']

/-- Python `text.split(sep)` for a one-character separator. -/
def splitOnChar (sep : Char) : List Char → List (List Char)
  | [] => [[]]
  | c :: r =>
      if c = sep then
        [] :: splitOnChar sep r
      else
        match splitOnChar sep r with
        | h :: t => (c :: h) :: t
        | [] => [[c]]

/-- `line.strip().lstrip("0123456789.-•·) ")` — one line of the text
segmenter (lines 172 / 282). -/
def cleanLine (l : List Char) : List Char :=
  (trimChars l).dropWhile (fun c => c ∈ enumChars)

/-- `raw.replace("\r", "").split("\n")` as character lists. -/
def segLines (s : String) : List (List Char) :=
  splitOnChar '\n' (s.data.filter (fun c => c ≠ '\r'))

/-- The text segmenter of `parse_db1` (lines 170-174) and `parse_db3`
(lines 280-283): split on newlines, strip each line, remove the leading
run of enumeration characters, drop lines that became empty. -/
def segmenter (s : String) : List String :=
  (segLines s).filterMap fun l =>
    let c := cleanLine l
    if c = [] then none else some (String.mk c)

/-- Python `s.replace(c, "")` for a single-character pattern. -/
def removeChar (c : Char) (s : String) : String :=
  String.mk (s.data.filter (fun a => a ≠ c))

/-- Leading sign of a Python float literal: returns (is-negative, rest). -/
def pySign : List Char → (Bool × List Char)
  | '+' :: r => (false, r)
  | '-' :: r => (true, r)
  | l => (false, l)

/-- Numeric value of a digit run. -/
def digitsVal (l : List Char) : ℕ :=
  l.foldl (fun a c => a * 10 + (c.toNat - 48)) 0

/-- Exponent suffix of a Python float literal. -/
def pyExp (m : ℚ) (r : List Char) : Option ℚ :=
  let p := pySign r
  let ed := p.2.takeWhile Char.isDigit
  let r2 := p.2.dropWhile Char.isDigit
  if ed = [] ∨ r2 ≠ [] then none
  else some (m * (10 : ℚ) ^ (if p.1 then -(digitsVal ed : ℤ) else (digitsVal ed : ℤ)))

/-- Model of Python's builtin `float(s)` on decimal literals
(`[sign] digits [. digits] [(e|E) [sign] digits]`), returning `none` where
Python raises `ValueError`.  (Python's `inf`/`nan` spellings and `_`
digit separators are outside the modelled domain.) -/
def pyFloat (s : String) : Option ℚ :=
  let p := pySign s.data
  let ip := p.2.takeWhile Char.isDigit
  let cs2 := p.2.dropWhile Char.isDigit
  let q :=
    match cs2 with
    | '.' :: r => (r.takeWhile Char.isDigit, r.dropWhile Char.isDigit)
    | _ => ([], cs2)
  if ip = [] ∧ q.1 = [] then none
  else
    let mant : ℚ := (digitsVal ip : ℚ) + (digitsVal q.1 : ℚ) / (10 : ℚ) ^ q.1.length
    let signed := if p.1 then -mant else mant
    match q.2 with
    | [] => some signed
    | 'e' :: r => pyExp signed r
    | 'E' :: r => pyExp signed r
    | _ => none

/-- `safe_float` (lines 99-103): strip `,`, `+`, `%`, whitespace, parse as
float, default `0.0` on failure. -/
def safe_float (s : String) : ℚ :=
  match pyFloat (pyStrip (removeChar '%' (removeChar '+' (removeChar ',' s)))) with
  | some q => q
  | none => 0

/-- Python `s.startswith(pre)`. -/
def pyStartsWith (s pre : String) : Bool :=
  pre.data.isPrefixOf s.data

/-- Python `a or b` on strings (`b` if `a` is empty). -/
def strOr (a b : String) : String :=
  if a = "" then b else a

example : segmenter "1. A\n- B\n\nC" = ["A", "B", "C"] := by decide
example : segmenter "" = [] := by decide
example : safe_float "+3.42%" = 3.42 := by with_unfolding_all decide
example : safe_float "-0.84%" = -0.84 := by with_unfolding_all decide
example : safe_float "" = 0 := by with_unfolding_all decide
example : pyFloat "1.5e2" = some 150 := by with_unfolding_all decide

/-! ## Notion document model (`get_prop`, lines 85-97) -/

/-- One property of a Notion row: a title or rich-text fragment list
(joined `plain_text` pieces), or a select whose payload is
`some name-of-the-selected-option` or `none` when no option is set. -/
inductive NProp where
  | title (texts : List String)
  | rich_text (texts : List String)
  | select (name : Option String)
deriving DecidableEq, Repr

/-- The requested property kind, third argument of `get_prop`. -/
inductive PType where
  | title
  | rich_text
  | select
deriving DecidableEq, Repr

/-- A row's property bag, `row["properties"]`. -/
abbrev Row := List (String × NProp)

/-- `get_prop(row, col, ptype)` (lines 85-97) restricted to the string
kinds: a missing column yields `""`; a column whose stored type differs
from the requested one yields `""` (in Python `p.get(ptype)` is `None`);
title/rich-text fragments are concatenated; a select yields its option
name or `""`. -/
def get_prop (row : Row) (col : String) (pt : PType) : String :=
  match row.find? (fun p => p.1 == col) with
  | none => ""
  | some p =>
      match pt, p.2 with
      | .title, .title l => String.join l
      | .rich_text, .rich_text l => String.join l
      | .select, .select n => n.getD ""
      | _, _ => ""

/-! ## Pipe-row parser (`parse_pipe`, lines 183-189) -/

/-- `parse_pipe(text)`: keep lines containing a `|`, split each on `|`,
strip every field. -/
def parse_pipe (text : String) : List (List String) :=
  (segLines text).filterMap fun line =>
    if '|' ∈ line then
      some ((splitOnChar '|' line).map (fun p => pyStrip (String.mk p)))
    else none

example :
    parse_pipe "반도체 | +3.42%\nnoise line\nAI | +2.81%" =
      [["반도체", "+3.42%"], ["AI", "+2.81%"]] := by decide

/-! ## Typed records of the output document -/

structure Sector where
  name : String
  change : String
  value : ℚ
deriving DecidableEq, Repr

structure Stock where
  name : String
  reason : String
  price : String
  change : String
  pos : Bool
deriving DecidableEq, Repr

structure NewsItem where
  time : String
  headline : String
  summary : String
  tag : String
deriving DecidableEq, Repr

structure Rec where
  name : String
  grade : String
  timeframe : String
  reason : String
  featured : Bool
deriving DecidableEq, Repr

structure IndexQuote where
  price : ℚ
  change : ℚ
  pct : ℚ
  pos : Bool
deriving DecidableEq, Repr

/-! ## DB 2 — sectors and stock highlights (`parse_db2`, lines 191-231) -/

/-- Lines 208-210: a non-empty change string that does not start with
`+` or `-` gets `+` prepended. -/
def sectorChange (chg0 : String) : String :=
  if chg0 ≠ "" ∧ ¬pyStartsWith chg0 "+" ∧ ¬pyStartsWith chg0 "-" then
    "+" ++ chg0
  else chg0

/-- One sector row (lines 206-215): requires ≥ 2 fields and a non-empty
name; the change string is normalized by `sectorChange`; `value` is
`safe_float` of the stored change string. -/
def sectorOfParts (parts : List String) : Option Sector :=
  if 2 ≤ parts.length ∧ parts.head! ≠ "" then
    some ⟨parts.head!, sectorChange parts[1]!, safe_float (sectorChange parts[1]!)⟩
  else none

/-- One stock-highlight row (lines 219-228): requires ≥ 4 fields and a
non-empty name; `pos` is true iff the stripped change string does not
start with `-`. -/
def stockOfParts (parts : List String) : Option Stock :=
  if 4 ≤ parts.length ∧ parts.head! ≠ "" then
    let chg := parts[3]!
    some ⟨parts.head!, parts[1]!, parts[2]!, chg, ¬pyStartsWith (pyStrip chg) "-"⟩
  else none

def db2Sectors (raw : String) : List Sector :=
  (parse_pipe raw).filterMap sectorOfParts

def db2Stocks (raw : String) : List Stock :=
  (parse_pipe raw).filterMap stockOfParts

/-- `parse_db2` on the rows returned by its query: the first row's
`주도 섹터` and `특이 종목` rich-text blobs are parsed; no rows gives the
typed-empty result. -/
def db2FromRows (rows : List Row) : List Sector × List Stock :=
  match rows with
  | [] => ([], [])
  | row :: _ =>
      (db2Sectors (get_prop row "주도 섹터" .rich_text),
       db2Stocks (get_prop row "특이 종목" .rich_text))

/-! ## DB 1 — market summary (`parse_db1`, lines 157-178) -/

/-- `parse_db1` on the rows returned by its query: summary is the
segmented `AI 3줄 요약` text capped to 3 lines, strength the `시장 강도`
select; no rows gives the typed-empty result. -/
def db1FromRows (rows : List Row) : List String × String :=
  match rows with
  | [] => ([], "")
  | row :: _ =>
      ((segmenter (get_prop row "AI 3줄 요약" .rich_text)).take 3,
       get_prop row "시장 강도" .select)

/-! ## DB 3 — news (`parse_db3`, lines 244-292) -/

/-- `parse_db3` after its (locally caught) query: an exception, zero
rows, or an empty stripped body all yield `[]`; otherwise the body is
segmented, each line becoming a `NewsItem` with empty time, summary and
tag. -/
def parse_db3E (q : Except Unit (List Row)) : List NewsItem :=
  match q with
  | .error _ => []
  | .ok [] => []
  | .ok (row :: _) =>
      let raw := pyStrip (get_prop row "AI 뉴스 요약" .rich_text)
      if raw = "" then []
      else (segmenter raw).map fun l => ⟨"", l, "", ""⟩

/-! ## DB 4 — recommendations (`parse_db4`, lines 306-333) -/

/-- Loop body of `parse_db4`: `i` is the `enumerate` index over
`rows[:5]`; rows with an empty `종목명` are skipped (`continue`), and
`featured` is `i == 0`. -/
def db4Aux : ℕ → List Row → List Rec
  | _, [] => []
  | i, row :: rs =>
      let name := get_prop row "종목명" .rich_text
      if name = "" then db4Aux (i + 1) rs
      else
        { name := name
          grade := strOr (get_prop row "추천등급" .select) "B"
          timeframe := strOr (get_prop row "투자기간" .select) "—"
          reason := get_prop row "추천사유" .rich_text
          featured := i = 0 } :: db4Aux (i + 1) rs

/-- `parse_db4` on the rows returned by its query. -/
def db4FromRows (rows : List Row) : List Rec :=
  db4Aux 0 (rows.take 5)

/-! ## Date-scoped query engine (`query_by_date`, lines 129-144) and the
single-request news query (lines 252-262)

A provider is modelled as the list of successive page responses it would
return; `query_by_date` consumes one response per loop iteration and
stops after the first response with `has_more = false`. -/

structure NPage where
  results : List Row
  has_more : Bool
  next_cursor : Option String
deriving DecidableEq

/-- The pagination loop of `query_by_date`: extend with the page's rows,
stop when `has_more` is false, otherwise continue with the next cursor. -/
def query_by_date : List NPage → List Row
  | [] => []
  | p :: rest => p.results ++ (if p.has_more then query_by_date rest else [])

/-- The news query of `parse_db3` (lines 252-262): a single POST with a
`contains` filter and `page_size` 10 — only the first response's rows are
used, no pagination loop. -/
def db3Query : List NPage → List Row
  | [] => []
  | p :: _ => p.results

/-! ## Aggregation (`fetch_notion`, lines 339-380) -/

/-- `_sample_rec()` (lines 430-450). -/
def sample_rec : List Rec :=
  [{ name := "삼성전자", grade := "A+", timeframe := "중기",
     reason := "HBM 전환 가속 및 파운드리 수주 회복 사이클 진입. 저점 분할매수 구간.",
     featured := true },
   { name := "SK하이닉스", grade := "A", timeframe := "단기",
     reason := "HBM3E 독점 공급 지위 유지. 고수익성 구조 지속.",
     featured := false },
   { name := "NAVER", grade := "B+", timeframe := "장기",
     reason := "HyperCLOVA X B2B 전환 가속. AI 수익화 초입 구간.",
     featured := false }]

/-- The six Notion-derived entries of the output document.  In the source
each normalizer returns a small dict and `fetch_notion` unions them with
`result.update(...)`; the keys are pairwise distinct, so the union is
represented as a record (serialised back to keyed form by `notionDict`
below). -/
structure NotionData where
  summary : List String
  market_strength : String
  sectors : List Sector
  stocks : List Stock
  news : List NewsItem
  recommendations : List Rec
deriving DecidableEq

/-- `SAMPLE_NOTION` (lines 452-480). -/
def SAMPLE_NOTION : NotionData where
  summary :=
    ["미 연준 금리 동결 시사에 코스피·나스닥 동반 상승. 외국인 순매수 전환이 지수 방어에 기여했다.",
     "AI 반도체 섹터 급등. 엔비디아 실적 서프라이즈로 SK하이닉스·삼성전자 HBM 관련주 강세.",
     "원/달러 환율 1,310원대 안정. 수출주 밸류에이션 개선 기대감이 코스피 안착을 이끌었다."]
  market_strength := "강세"
  sectors :=
    [⟨"반도체", "+3.42%", 3.42⟩, ⟨"AI·소프트웨어", "+2.81%", 2.81⟩,
     ⟨"2차전지", "+2.20%", 2.20⟩, ⟨"바이오", "+1.58%", 1.58⟩,
     ⟨"금융", "-0.84%", -0.84⟩, ⟨"건설·부동산", "-1.43%", -1.43⟩]
  stocks :=
    [⟨"SK하이닉스", "HBM3E 양산 확대", "185,400", "+5.23%", true⟩,
     ⟨"한미반도체", "TC본더 수주 체결", "94,800", "+8.71%", true⟩,
     ⟨"삼성SDI", "유럽 수요 둔화", "312,000", "-3.12%", false⟩,
     ⟨"카카오페이", "해외결제 서비스 확대", "24,650", "+4.46%", true⟩]
  news :=
    [⟨"09:02", "연준 1월 의사록 — 금리인하 서두를 필요 없다 기조 재확인", "", "통화정책"⟩,
     ⟨"10:15", "엔비디아 블랙웰 GPU 공급난 — 국내 HBM 기업 반사이익 기대", "", "반도체"⟩,
     ⟨"11:33", "정부 밸류업 2차 프로그램 발표 — 자사주 소각 의무화 논의", "", "정책"⟩,
     ⟨"13:47", "BYD 국내 출시 재연기 — 국산 완성차·배터리주 단기 수혜", "", "자동차"⟩]
  recommendations := sample_rec

/-- One run's remote Notion environment: the discovered child databases
(id, title) in order, and the outcome each table's date query would have
(`.error ()` = the request raises).  `q3` is the outcome of the news
table's single `contains` query. -/
structure NotionEnv where
  dbs : List (String × String)
  q1 : Except Unit (List Row)
  q2 : Except Unit (List Row)
  q3 : Except Unit (List Row)
  q4 : Except Unit (List Row)

/-- `fetch_notion` (lines 339-380): parse each discovered table in order;
a missing table yields its typed-empty result, except the fourth
(recommendations), whose absence yields `_sample_rec()`.  Exceptions from
the DB1/DB2/DB4 queries propagate (`.error`); DB3 catches its own
(`parse_db3E`). -/
def fetch_notion (env : NotionEnv) : Except Unit NotionData :=
  Except.bind
    (if 1 ≤ env.dbs.length then env.q1.map db1FromRows else pure ([], "")) fun a =>
  Except.bind
    (if 2 ≤ env.dbs.length then env.q2.map db2FromRows else pure ([], [])) fun b =>
  Except.bind
    (if 4 ≤ env.dbs.length then env.q4.map db4FromRows else pure sample_rec) fun recs =>
  Except.ok ⟨a.1, a.2, b.1, b.2,
    (if 3 ≤ env.dbs.length then parse_db3E env.q3 else []), recs⟩

/-! ## Market indices (`fetch_yahoo` / `fetch_indices`, lines 385-425) -/

/-- The fields read out of the Yahoo chart `meta` object; `none` means
the key is absent from the response. -/
structure Meta where
  regularMarketPrice : Option ℚ
  chartPreviousClose : Option ℚ
  previousClose : Option ℚ
deriving DecidableEq

/-- Python `a or b` on an optional number: `b` when `a` is `None` or 0. -/
def orFalsy (a : Option ℚ) (b : ℚ) : ℚ :=
  match a with
  | none => b
  | some x => if x = 0 then b else x

/-- Floor of a rational, computed on the normalized representation. -/
def ratFloor (q : ℚ) : ℤ :=
  Int.fdiv q.num q.den

/-- Round half to even on ℚ, the model of Python's builtin `round`. -/
def rhe (q : ℚ) : ℤ :=
  let f := ratFloor q
  let frac := q - (f : ℚ)
  if frac < 1 / 2 then f
  else if 1 / 2 < frac then f + 1
  else if f % 2 = 0 then f else f + 1

/-- Python `round(q, d)`. -/
def roundTo (q : ℚ) (d : ℕ) : ℚ :=
  (rhe (q * (10 : ℚ) ^ d) : ℚ) / (10 : ℚ) ^ d

/-- `fetch_yahoo(symbol, dec)` (lines 385-406) given the outcome of its
HTTP request: on failure, the zero quote with `pos = true`; on success,
`price = meta.get("regularMarketPrice", 0)`,
`prev = chartPreviousClose or previousClose or price`,
`change = price - prev`, `pct = change / prev * 100 if prev else 0`,
price/change rounded to `dec` decimals and pct to 2. -/
def fetch_yahoo (m? : Except Unit Meta) (dec : ℕ) : IndexQuote :=
  match m? with
  | .error _ => ⟨0, 0, 0, true⟩
  | .ok m =>
      let price := m.regularMarketPrice.getD 0
      let prev := orFalsy m.chartPreviousClose (orFalsy m.previousClose price)
      let change := price - prev
      let pct := if prev = 0 then 0 else change / prev * 100
      ⟨roundTo price dec, roundTo change dec, roundTo pct 2, decide (0 ≤ change)⟩

/-- The 8 fixed feed targets (lines 409-418): output key, symbol, decimal
count. -/
def TARGETS : List (String × String × ℕ) :=
  [("kospi", "^KS11", 0), ("kosdaq", "^KQ11", 0), ("sp500", "^GSPC", 0),
   ("nasdaq", "^IXIC", 0), ("usdkrw", "KRW=X", 1), ("us10y", "^TNX", 3),
   ("wti", "CL=F", 2), ("gold", "GC=F", 0)]

/-- `fetch_indices` (lines 408-425) over a map from symbol to request
outcome. -/
def fetch_indices (feed : String → Except Unit Meta) : List (String × IndexQuote) :=
  TARGETS.map fun t => (t.1, fetch_yahoo (feed t.2.1) t.2.2)

/-! ## `main` (lines 485-526): output document assembly -/

/-- A typed value of the output JSON document. -/
inductive Val where
  | vStr (s : String)
  | vStrList (l : List String)
  | vSectors (l : List Sector)
  | vStocks (l : List Stock)
  | vNews (l : List NewsItem)
  | vRecs (l : List Rec)
  | vIndices (l : List (String × IndexQuote))
deriving DecidableEq

/-- Python `dict.update` with a single key: overwrite in place if the key
exists, append otherwise. -/
def updOne (d : List (String × Val)) (kv : String × Val) : List (String × Val) :=
  if d.any (fun p => p.1 == kv.1) then
    d.map (fun p => if p.1 == kv.1 then (p.1, kv.2) else p)
  else d ++ [kv]

/-- Python `dict.update(other)`. -/
def dictUpdate (d : List (String × Val)) (kvs : List (String × Val)) :
    List (String × Val) :=
  kvs.foldl updOne d

/-- Dictionary lookup on the output document. -/
def dlookup (k : String) (d : List (String × Val)) : Option Val :=
  (d.find? (fun p => p.1 == k)).map (fun p => p.2)

/-- The keyed form of the six Notion-derived entries, in the order the
source's `update` calls add them. -/
def notionDict (d : NotionData) : List (String × Val) :=
  [("summary", .vStrList d.summary), ("market_strength", .vStr d.market_strength),
   ("sectors", .vSectors d.sectors), ("stocks", .vStocks d.stocks),
   ("news", .vNews d.news), ("recommendations", .vRecs d.recommendations)]

/-- One run's full remote environment: the two timestamp strings, whether
`NOTION_TOKEN`/`NOTION_PAGE_ID` are both set, the Notion environment and
the market feed. -/
structure RunEnv where
  updated_at : String
  updated_kst : String
  notionConfigured : Bool
  notion : NotionEnv
  feed : String → Except Unit Meta

/-- The Notion half of the output (lines 502-512): when unconfigured, or
when `fetch_notion` raises, the static sample document is substituted. -/
def notionPart (env : RunEnv) : NotionData :=
  if env.notionConfigured then
    match fetch_notion env.notion with
    | .ok d => d
    | .error _ => SAMPLE_NOTION
  else SAMPLE_NOTION

/-- The output document of `main` (lines 494-522): the timestamps, then
`output.update(<notion result or sample>)`, then `output["indices"]`. -/
def mainOutput (env : RunEnv) : List (String × Val) :=
  dictUpdate
    (dictUpdate
      [("updated_at", .vStr env.updated_at), ("updated_kst", .vStr env.updated_kst)]
      (notionDict (notionPart env)))
    [("indices", .vIndices (fetch_indices env.feed))]

/-! ## Helper lemmas -/

theorem splitOnChar_ne_nil (sep : Char) (l : List Char) : splitOnChar sep l ≠ [] := by
  induction l with
  | nil => simp [splitOnChar]
  | cons c r ih =>
      rw [splitOnChar]
      by_cases h : c = sep
      · simp [h]
      · simp only [h, if_false]
        cases hs : splitOnChar sep r with
        | nil => exact absurd hs ih
        | cons a t => simp

theorem length_splitOnChar_of_mem {sep : Char} {l : List Char} (h : sep ∈ l) :
    2 ≤ (splitOnChar sep l).length := by
  induction l with
  | nil => cases h
  | cons c r ih =>
      rw [splitOnChar]
      by_cases hc : c = sep
      · simp only [hc, if_true, List.length_cons]
        have := List.length_pos.2 (splitOnChar_ne_nil sep r)
        omega
      · simp only [hc, if_false]
        have hr : sep ∈ r := by
          rcases List.mem_cons.1 h with h1 | h1
          · exact absurd h1.symm hc
          · exact h1
        cases hs : splitOnChar sep r with
        | nil => exact absurd hs (splitOnChar_ne_nil sep r)
        | cons a t =>
            have := ih hr
            rw [hs] at this
            simpa using this

theorem mem_of_mem_splitOnChar {sep : Char} {l : List Char} {l' : List Char}
    (h : l' ∈ splitOnChar sep l) {c : Char} (hc : c ∈ l') : c ∈ l := by
  induction l generalizing l' with
  | nil =>
      simp [splitOnChar] at h
      subst h
      cases hc
  | cons a r ih =>
      rw [splitOnChar] at h
      by_cases ha : a = sep
      · simp only [ha, if_true, List.mem_cons] at h
        rcases h with h | h
        · subst h; cases hc
        · exact List.mem_cons_of_mem _ (ih h hc)
      · simp only [ha, if_false] at h
        cases hs : splitOnChar sep r with
        | nil => exact absurd hs (splitOnChar_ne_nil sep r)
        | cons b t =>
            rw [hs] at h
            rcases List.mem_cons.1 h with h1 | h1
            · subst h1
              rcases List.mem_cons.1 hc with h2 | h2
              · exact h2 ▸ List.mem_cons_self _ _
              · exact List.mem_cons_of_mem _ (ih (hs ▸ List.mem_cons_self b t) h2)
            · exact List.mem_cons_of_mem _ (ih (hs ▸ List.mem_cons_of_mem b h1) hc)

theorem dropWhile_head?_false {p : Char → Bool} {l : List Char} {c : Char}
    (h : (l.dropWhile p).head? = some c) : p c = false := by
  induction l with
  | nil => cases h
  | cons a r ih =>
      rw [List.dropWhile_cons] at h
      by_cases hp : p a
      · rw [if_pos hp] at h
        exact ih h
      · rw [if_neg hp] at h
        cases h
        simpa using hp

theorem dropWhile_eq_self_of_head? {p : Char → Bool} {l : List Char}
    (h : ∀ c, l.head? = some c → p c = false) : l.dropWhile p = l := by
  cases l with
  | nil => rfl
  | cons a r =>
      rw [List.dropWhile_cons, if_neg]
      simp [h a rfl]

theorem dropWhile_dropWhile_self {p : Char → Bool} (l : List Char) :
    (l.dropWhile p).dropWhile p = l.dropWhile p := by
  apply dropWhile_eq_self_of_head?
  intro c hc
  exact dropWhile_head?_false hc

theorem getLast?_dropWhile_of_ne_nil {p : Char → Bool} {l : List Char}
    (h : l.dropWhile p ≠ []) : (l.dropWhile p).getLast? = l.getLast? := by
  induction l with
  | nil => rfl
  | cons a r ih =>
      rw [List.dropWhile_cons]
      by_cases hp : p a
      · rw [List.dropWhile_cons, if_pos hp] at h
        rw [if_pos hp, ih h]
        cases r with
        | nil => exact absurd rfl h
        | cons b t => rw [List.getLast?_cons_cons]
      · rw [if_neg hp]

theorem trimChars_eq_nil {l : List Char} (h : ∀ c ∈ l, c.isWhitespace) :
    trimChars l = [] := by
  unfold trimChars
  have h1 : l.dropWhile Char.isWhitespace = [] :=
    List.dropWhile_eq_nil_iff.2 h
  rw [h1]
  rfl

theorem trimChars_idem (l : List Char) : trimChars (trimChars l) = trimChars l := by
  unfold trimChars
  set A := l.dropWhile Char.isWhitespace with hA
  set B := A.reverse.dropWhile Char.isWhitespace with hB
  have hfront : B.reverse.dropWhile Char.isWhitespace = B.reverse := by
    apply dropWhile_eq_self_of_head?
    intro c hc
    rw [List.head?_reverse] at hc
    by_cases hBnil : B = []
    · rw [hBnil] at hc; cases hc
    · have hlast : B.getLast? = A.reverse.getLast? := by
        rw [hB]; exact getLast?_dropWhile_of_ne_nil (hB ▸ hBnil)
      rw [hlast, List.getLast?_reverse] at hc
      exact dropWhile_head?_false (hA ▸ hc)
  rw [hfront, List.reverse_reverse]
  rw [hB, dropWhile_dropWhile_self]

theorem pyStrip_idem (s : String) : pyStrip (pyStrip s) = pyStrip s := by
  unfold pyStrip
  rw [show (String.mk (trimChars s.data)).data = trimChars s.data from rfl,
    trimChars_idem]

theorem trimChars_eq_self {l : List Char}
    (hh : ∀ c, l.head? = some c → c.isWhitespace = false)
    (hl : ∀ c, l.getLast? = some c → c.isWhitespace = false) :
    trimChars l = l := by
  unfold trimChars
  rw [dropWhile_eq_self_of_head? hh]
  rw [dropWhile_eq_self_of_head? (fun c hc => hl c (by rwa [List.head?_reverse] at hc))]
  exact List.reverse_reverse l

theorem cleanLine_eq_self {l : List Char}
    (hh : ∀ c, l.head? = some c → c.isWhitespace = false ∧ c ∉ enumChars)
    (hl : ∀ c, l.getLast? = some c → c.isWhitespace = false) :
    cleanLine l = l := by
  unfold cleanLine
  rw [trimChars_eq_self (fun c hc => (hh c hc).1) hl]
  apply dropWhile_eq_self_of_head?
  intro c hc
  simpa using (hh c hc).2

theorem segmenter_mem_ne_empty {s : String} {x : String} (h : x ∈ segmenter s) :
    x ≠ "" := by
  unfold segmenter at h
  rcases List.mem_filterMap.1 h with ⟨l, -, hf⟩
  simp only at hf
  by_cases hc : cleanLine l = []
  · rw [if_pos hc] at hf; cases hf
  · rw [if_neg hc] at hf
    cases hf
    intro he
    exact hc (congrArg String.data he)

theorem filterMap_eq_map_of_forall {α β : Type} {f : α → Option β} {g : α → β} :
    ∀ {L : List α}, (∀ l ∈ L, f l = some (g l)) → L.filterMap f = L.map g
  | [], _ => rfl
  | a :: t, h => by
      rw [List.filterMap_cons, h a (List.mem_cons_self a t), List.map_cons,
        filterMap_eq_map_of_forall (fun l hl => h l (List.mem_cons_of_mem a hl))]

/-- A character check for a "clean" line start: not whitespace and not an
enumeration character. -/
def cleanHeadChk (c : Char) : Bool :=
  !c.isWhitespace && !enumChars.contains c

/-- CLAIM C8 — The text segmenter splits on newlines, trims whitespace,
strips leading enumeration runs, and discards emptied lines:
`"1. A\n- B\n\nC"` yields `["A", "B", "C"]`; any input made only of
whitespace yields `[]`; and on already-clean input (no `\r`, every line
non-empty, starting with a character that is neither whitespace nor an
enumeration character, and ending with a non-whitespace character) the
segmenter returns the input's lines unchanged. -/
theorem c8_segmenter :
    segmenter "1. A\n- B\n\nC" = ["A", "B", "C"]
    ∧ (∀ s : String, (∀ c ∈ s.data, c.isWhitespace) → segmenter s = [])
    ∧ (∀ s : String, (∀ c ∈ s.data, c ≠ '\r') →
        (∀ l ∈ segLines s, l ≠ [] ∧ l.head?.all cleanHeadChk = true ∧
          l.getLast?.all (fun c => !c.isWhitespace) = true) →
        segmenter s = (segLines s).map String.mk) := by
  refine ⟨by decide, ?_, ?_⟩
  · intro s hws
    unfold segmenter
    apply List.filterMap_eq_nil_iff.2
    intro l hl
    have hlw : ∀ c ∈ l, c.isWhitespace := by
      intro c hc
      have : c ∈ s.data.filter (fun c => c ≠ '\r') :=
        mem_of_mem_splitOnChar hl hc
      exact hws c (List.mem_filter.1 this).1
    have hclean : cleanLine l = [] := by
      unfold cleanLine
      rw [trimChars_eq_nil hlw]
      rfl
    simp [hclean]
  · intro s _ hc
    unfold segmenter
    apply filterMap_eq_map_of_forall
    intro l hl
    obtain ⟨hne, hh, hlast⟩ := hc l hl
    have hcl : cleanLine l = l := by
      apply cleanLine_eq_self
      · intro c hhd
        rw [hhd] at hh
        simp only [Option.all_some, cleanHeadChk, Bool.and_eq_true,
          Bool.not_eq_true'] at hh
        refine ⟨hh.1, fun hmem => ?_⟩
        have hct : enumChars.contains c = true := by
          simpa [List.contains] using (List.elem_iff).2 hmem
        rw [hh.2] at hct
        exact Bool.false_ne_true hct
      · intro c hgl
        rw [hgl] at hlast
        simpa using hlast
    simp only [hcl]
    rw [if_neg hne]

/-- Witness for C8: the whitespace-only and already-clean hypotheses
discharged at concrete inputs. -/
theorem c8_segmenter_witness :
    segmenter " \n\t " = [] ∧ segmenter "AB\nC" = (segLines "AB\nC").map String.mk :=
  ⟨c8_segmenter.2.1 " \n\t " (by decide),
   c8_segmenter.2.2 "AB\nC" (by decide) (by decide)⟩

/-- CLAIM C10 — Every row produced by `parse_pipe` has at least two
fields, each field is whitespace-trimmed, and consequently the sector
normalizer's `len(parts) >= 2` check never rejects a parsed pipe-row: a
sector row is dropped exactly when its first (name) field is empty. -/
theorem c10_pipe_rows (text : String) :
    ∀ parts ∈ parse_pipe text,
      2 ≤ parts.length ∧
      (∀ p ∈ parts, pyStrip p = p) ∧
      (sectorOfParts parts = none ↔ parts.head! = "") := by
  intro parts hmem
  unfold parse_pipe at hmem
  rcases List.mem_filterMap.1 hmem with ⟨line, -, hf⟩
  by_cases hp : '|' ∈ line
  · rw [if_pos hp] at hf
    cases hf
    have hlen : 2 ≤ ((splitOnChar '|' line).map
        (fun p => pyStrip (String.mk p))).length := by
      rw [List.length_map]
      exact length_splitOnChar_of_mem hp
    refine ⟨hlen, ?_, ?_⟩
    · intro p hpm
      rcases List.mem_map.1 hpm with ⟨q, -, hq⟩
      rw [← hq, pyStrip_idem]
    · unfold sectorOfParts
      by_cases hh : ((splitOnChar '|' line).map
          (fun p => pyStrip (String.mk p))).head! = ""
      · rw [if_neg (by simp [hh])]
        simp [hh]
      · rw [if_pos ⟨hlen, hh⟩]
        simp [hh]
  · rw [if_neg hp] at hf
    cases hf

/-- Witness for C10 at a concrete pipe text. -/
theorem c10_pipe_rows_witness :
    (["반도체", "+3.42%"] : List String) ∈ parse_pipe "반도체 | +3.42%" ∧
    2 ≤ (["반도체", "+3.42%"] : List String).length ∧
    (∀ p ∈ (["반도체", "+3.42%"] : List String), pyStrip p = p) :=
  ⟨by decide,
   (c10_pipe_rows "반도체 | +3.42%" ["반도체", "+3.42%"] (by decide)).1,
   (c10_pipe_rows "반도체 | +3.42%" ["반도체", "+3.42%"] (by decide)).2.1⟩

theorem db4Aux_featured_false {rs : List Row} :
    ∀ {i : ℕ}, i ≠ 0 → ∀ r ∈ db4Aux i rs, r.featured = false := by
  induction rs with
  | nil => intro i _ r hr; cases hr
  | cons row t ih =>
      intro i hi r hr
      rw [db4Aux] at hr
      by_cases hname : get_prop row "종목명" PType.rich_text = ""
      · rw [if_pos hname] at hr
        exact ih (Nat.succ_ne_zero i) r hr
      · rw [if_neg hname] at hr
        rcases List.mem_cons.1 hr with h | h
        · rw [h]
          simpa using hi
        · exact ih (Nat.succ_ne_zero i) r h

theorem db4Aux_length (rs : List Row) (i : ℕ) :
    (db4Aux i rs).length
      = rs.countP (fun row => get_prop row "종목명" PType.rich_text != "") := by
  induction rs generalizing i with
  | nil => rfl
  | cons row t ih =>
      rw [db4Aux, List.countP_cons]
      by_cases hname : get_prop row "종목명" PType.rich_text = ""
      · rw [if_pos hname, ih (i + 1)]
        simp [hname]
      · rw [if_neg hname]
        simp only [List.length_cons, ih (i + 1)]
        have : (get_prop row "종목명" PType.rich_text != "") = true := by
          simpa using hname
        rw [this]
        simp

/-- CLAIM C1 (amended) — `featured` is computed from the `enumerate`
index over `rows[:5]` before empty-name rows are skipped: exactly one
emitted Recommendation is featured iff the *first* row of the query
result has a non-empty name (and it is the one built from that first
row); when the first row's name is empty, no emitted Recommendation is
featured at all.  Empty-named rows are excluded from the output but do
count toward the 5-row cap. -/
theorem c1_featured_amended (rows : List Row) (hne : rows ≠ []) :
    ((db4FromRows rows).countP (fun r => r.featured)
        = if get_prop (rows.head hne) "종목명" PType.rich_text = "" then 0 else 1)
    ∧ (db4FromRows rows).length
        = (rows.take 5).countP (fun row => get_prop row "종목명" PType.rich_text != "")
    ∧ (∀ r ∈ db4FromRows rows, r.featured = true →
        r.name = get_prop (rows.head hne) "종목명" PType.rich_text) := by
  cases rows with
  | nil => exact absurd rfl hne
  | cons r rs =>
      have htake : (r :: rs).take 5 = r :: rs.take 4 := rfl
      have hzero : ∀ x ∈ db4Aux 1 (rs.take 4), x.featured = false :=
        db4Aux_featured_false (by omega)
      unfold db4FromRows
      rw [htake, db4Aux]
      by_cases hname : get_prop r "종목명" PType.rich_text = ""
      · rw [if_pos hname]
        refine ⟨?_, ?_, ?_⟩
        · rw [List.head_cons, if_pos hname]
          exact List.countP_eq_zero.2 (fun a ha => by simpa using hzero a ha)
        · rw [db4Aux_length, List.countP_cons]
          simp [hname]
        · intro x hx hfx
          exact absurd (hzero x hx) (by rw [hfx]; simp)
      · rw [if_neg hname]
        refine ⟨?_, ?_, ?_⟩
        · rw [List.head_cons, if_neg hname, List.countP_cons]
          have h0 : (db4Aux 1 (rs.take 4)).countP (fun x => x.featured) = 0 :=
            List.countP_eq_zero.2 (fun a ha => by simpa using hzero a ha)
          simp [h0]
        · rw [List.length_cons, db4Aux_length, List.countP_cons]
          have : (get_prop r "종목명" PType.rich_text != "") = true := by
            simpa using hname
          rw [this]
          simp
        · intro x hx hfx
          rcases List.mem_cons.1 hx with h | h
          · rw [h]; rfl
          · exact absurd (hzero x h) (by rw [hfx]; simp)

/-- Two recommendation rows for today: the first with an *empty* name
(`종목명` column missing), the second named `삼성전자`. -/
def c1Rows : List Row :=
  [[("날짜", NProp.title ["2026-02-20"])],
   [("종목명", NProp.rich_text ["삼성전자"])]]

/-- CLAIM C1 counterexample — a run whose query returns a row with a
non-empty name, yet *no* emitted Recommendation has `featured = true`
(because the first row's name is empty, `i == 0` is consumed by the
skipped row): the claimed invariant "exactly one featured" fails. -/
theorem c1_cex :
    (∃ row ∈ c1Rows, get_prop row "종목명" PType.rich_text ≠ "") ∧
    db4FromRows c1Rows ≠ [] ∧
    (db4FromRows c1Rows).countP (fun r => r.featured) = 0 := by decide

/-- Witness for C1 (amended) at the concrete two-row input. -/
theorem c1_featured_amended_witness :
    c1Rows ≠ [] ∧
    (db4FromRows c1Rows).countP (fun r => r.featured)
      = if get_prop (c1Rows.head (by decide)) "종목명" PType.rich_text = ""
        then 0 else 1 :=
  ⟨by decide, (c1_featured_amended c1Rows (by decide)).1⟩

/-- CLAIM C7 counterexample — a sector pipe-row with 2 fields, a
non-empty name, and an *empty* change field: the change string does not
start with `+` or `-`, yet no `+` is prepended (the source prepends only
when the change string is non-empty); the stored change is `""`, not
`"+"`. -/
theorem c7_cex :
    parse_pipe "a |" = [["a", ""]] ∧
    pyStartsWith "" "+" = false ∧ pyStartsWith "" "-" = false ∧
    db2Sectors "a |" = [{ name := "a", change := "", value := 0 }] ∧
    ("" : String) ≠ "+" ++ "" := by
  refine ⟨by decide, by decide, by decide, ?_, by decide⟩
  with_unfolding_all decide

set_option maxHeartbeats 1000000 in
/-- CLAIM C7 (amended) — for every sector pipe-row with ≥ 2 fields and a
non-empty name: a `+` is prepended exactly when the change field is
*non-empty* and lacks an explicit sign prefix (an empty change field is
stored unchanged as `""` with value `0.0`); the stored value is
`safe_float` of the stored change string — `"3.42%"` is stored as
`"+3.42%"` with value `3.42`, and `"-0.84%"` is stored without a
prepended `+` with value `-0.84`. -/
theorem c7_sector_amended (parts : List String) (h2 : 2 ≤ parts.length)
    (hn : parts.head! ≠ "") :
    (∃ s, sectorOfParts parts = some s ∧
      s.name = parts.head! ∧
      (parts[1]! = "" → s.change = "" ∧ s.value = 0) ∧
      (parts[1]! ≠ "" → pyStartsWith parts[1]! "+" = false →
        pyStartsWith parts[1]! "-" = false → s.change = "+" ++ parts[1]!) ∧
      ((pyStartsWith parts[1]! "+" = true ∨ pyStartsWith parts[1]! "-" = true) →
        s.change = parts[1]!) ∧
      s.value = safe_float s.change)
    ∧ sectorOfParts ["반도체", "3.42%"] = some ⟨"반도체", "+3.42%", 3.42⟩
    ∧ sectorOfParts ["금융", "-0.84%"] = some ⟨"금융", "-0.84%", -0.84⟩ := by
  refine ⟨?_, ?_, ?_⟩
  case refine_2 =>
    unfold sectorOfParts
    rw [if_pos (⟨by decide, by decide⟩ :
      2 ≤ (["반도체", "3.42%"] : List String).length ∧
        (["반도체", "3.42%"] : List String).head! ≠ "")]
    rw [show (["반도체", "3.42%"] : List String)[1]! = "3.42%" from by decide]
    rw [show (["반도체", "3.42%"] : List String).head! = "반도체" from by decide]
    rw [show sectorChange "3.42%" = "+3.42%" from by decide]
    rw [show safe_float "+3.42%" = 3.42 from by with_unfolding_all decide]
  case refine_3 =>
    unfold sectorOfParts
    rw [if_pos (⟨by decide, by decide⟩ :
      2 ≤ (["금융", "-0.84%"] : List String).length ∧
        (["금융", "-0.84%"] : List String).head! ≠ "")]
    rw [show (["금융", "-0.84%"] : List String)[1]! = "-0.84%" from by decide]
    rw [show (["금융", "-0.84%"] : List String).head! = "금융" from by decide]
    rw [show sectorChange "-0.84%" = "-0.84%" from by decide]
    rw [show safe_float "-0.84%" = -0.84 from by with_unfolding_all decide]
  have hsome : sectorOfParts parts
      = some ⟨parts.head!, sectorChange parts[1]!,
          safe_float (sectorChange parts[1]!)⟩ := by
    unfold sectorOfParts
    rw [if_pos ⟨h2, hn⟩]
  refine ⟨⟨parts.head!, sectorChange parts[1]!, safe_float (sectorChange parts[1]!)⟩,
    hsome, rfl, ?_, ?_, ?_, rfl⟩
  · intro he
    have hch : sectorChange parts[1]! = "" := by
      unfold sectorChange
      rw [if_neg (by simp [he]), he]
    refine ⟨hch, ?_⟩
    show safe_float (sectorChange parts[1]!) = 0
    rw [hch]
    with_unfolding_all decide
  · intro h1 h2' h3
    show sectorChange parts[1]! = "+" ++ parts[1]!
    unfold sectorChange
    rw [if_pos ⟨h1, by simp [h2'], by simp [h3]⟩]
  · intro hstart
    show sectorChange parts[1]! = parts[1]!
    unfold sectorChange
    rcases hstart with h | h
    · rw [if_neg (by simp [h])]
    · rw [if_neg (by simp [h])]

/-- Witness for C7 (amended) at a concrete sector row. -/
theorem c7_sector_amended_witness :
    2 ≤ (["AI", "2.81%"] : List String).length ∧
    (∃ s, sectorOfParts ["AI", "2.81%"] = some s ∧ s.value = safe_float s.change) :=
  ⟨by decide, by
    obtain ⟨s, hs, -, -, -, -, hv⟩ :=
      (c7_sector_amended ["AI", "2.81%"] (by decide) (by decide)).1
    exact ⟨s, hs, hv⟩⟩

theorem fetch_notion_ok (env : NotionEnv) (r1 r2 r4 : List Row)
    (h1 : env.q1 = .ok r1) (h2 : env.q2 = .ok r2) (h4 : env.q4 = .ok r4) :
    fetch_notion env = .ok
      ⟨(if 1 ≤ env.dbs.length then db1FromRows r1 else ([], "")).1,
       (if 1 ≤ env.dbs.length then db1FromRows r1 else ([], "")).2,
       (if 2 ≤ env.dbs.length then db2FromRows r2 else ([], [])).1,
       (if 2 ≤ env.dbs.length then db2FromRows r2 else ([], [])).2,
       if 3 ≤ env.dbs.length then parse_db3E env.q3 else [],
       if 4 ≤ env.dbs.length then db4FromRows r4 else sample_rec⟩ := by
  unfold fetch_notion
  rw [h1, h2, h4]
  have e1 : (if 1 ≤ env.dbs.length then (Except.ok r1).map db1FromRows
      else (pure (([], "") : List String × String) : Except Unit _))
      = Except.ok (if 1 ≤ env.dbs.length then db1FromRows r1 else ([], "")) := by
    split <;> rfl
  have e2 : (if 2 ≤ env.dbs.length then (Except.ok r2).map db2FromRows
      else (pure (([], []) : List Sector × List Stock) : Except Unit _))
      = Except.ok (if 2 ≤ env.dbs.length then db2FromRows r2 else ([], [])) := by
    split <;> rfl
  have e4 : (if 4 ≤ env.dbs.length then (Except.ok r4).map db4FromRows
      else (pure (sample_rec) : Except Unit _))
      = Except.ok (if 4 ≤ env.dbs.length then db4FromRows r4 else sample_rec) := by
    split <;> rfl
  rw [e1, e2, e4]
  rfl

theorem mainOutput_eq (env : RunEnv) :
    mainOutput env =
      [("updated_at", .vStr env.updated_at), ("updated_kst", .vStr env.updated_kst),
       ("summary", .vStrList (notionPart env).summary),
       ("market_strength", .vStr (notionPart env).market_strength),
       ("sectors", .vSectors (notionPart env).sectors),
       ("stocks", .vStocks (notionPart env).stocks),
       ("news", .vNews (notionPart env).news),
       ("recommendations", .vRecs (notionPart env).recommendations),
       ("indices", .vIndices (fetch_indices env.feed))] := rfl

/-- CLAIM C4 — For every run environment, including runs in which every
remote call fails, the output document contains all 9 top-level keys,
each bound to a value of its specified type. -/
theorem c4_schema_complete (env : RunEnv) :
    (∃ x, dlookup "updated_at" (mainOutput env) = some (.vStr x)) ∧
    (∃ x, dlookup "updated_kst" (mainOutput env) = some (.vStr x)) ∧
    (∃ x, dlookup "summary" (mainOutput env) = some (.vStrList x)) ∧
    (∃ x, dlookup "market_strength" (mainOutput env) = some (.vStr x)) ∧
    (∃ x, dlookup "sectors" (mainOutput env) = some (.vSectors x)) ∧
    (∃ x, dlookup "stocks" (mainOutput env) = some (.vStocks x)) ∧
    (∃ x, dlookup "news" (mainOutput env) = some (.vNews x)) ∧
    (∃ x, dlookup "recommendations" (mainOutput env) = some (.vRecs x)) ∧
    (∃ x, dlookup "indices" (mainOutput env) = some (.vIndices x)) := by
  rw [mainOutput_eq]
  exact ⟨⟨_, rfl⟩, ⟨_, rfl⟩, ⟨_, rfl⟩, ⟨_, rfl⟩, ⟨_, rfl⟩, ⟨_, rfl⟩, ⟨_, rfl⟩,
    ⟨_, rfl⟩, ⟨_, rfl⟩⟩

/-- CLAIM C5 — When table discovery yields fewer than 4 tables, only the
recommendations output is replaced by the static sample set; every other
missing table yields its typed-empty result.  With exactly 3 tables
discovered (whose queries return no rows for today) the recommendations
list equals the static sample set exactly and the other three lists are
empty — and the sample document's corresponding lists are non-empty, so
none of them is sample data. -/
theorem c5_sample_only_recs :
    (∀ (env : NotionEnv) (r1 r2 : List Row),
        env.dbs.length < 4 → env.q1 = .ok r1 → env.q2 = .ok r2 →
        ∃ d, fetch_notion env = .ok d ∧ d.recommendations = sample_rec ∧
          (env.dbs.length < 3 → d.news = []) ∧
          (env.dbs.length < 2 → d.sectors = [] ∧ d.stocks = []) ∧
          (env.dbs.length < 1 → d.summary = [] ∧ d.market_strength = ""))
    ∧ (∀ env : NotionEnv, env.dbs.length = 3 →
        env.q1 = .ok [] → env.q2 = .ok [] → env.q3 = .ok [] →
        fetch_notion env = .ok ⟨[], "", [], [], [], sample_rec⟩)
    ∧ SAMPLE_NOTION.summary ≠ [] ∧ SAMPLE_NOTION.sectors ≠ [] ∧
      SAMPLE_NOTION.stocks ≠ [] ∧ SAMPLE_NOTION.news ≠ [] := by
  refine ⟨?_, ?_, by decide, by decide, by decide, by decide⟩
  · intro env r1 r2 hlt h1 h2
    by_cases h4 : ∃ rows4, env.q4 = .ok rows4
    · obtain ⟨rows4, h4⟩ := h4
      refine ⟨_, fetch_notion_ok env r1 r2 rows4 h1 h2 h4, ?_, ?_, ?_, ?_⟩
      · show (if 4 ≤ env.dbs.length then db4FromRows rows4 else sample_rec)
            = sample_rec
        rw [if_neg (by omega)]
      · intro h3
        show (if 3 ≤ env.dbs.length then parse_db3E env.q3 else []) = []
        rw [if_neg (by omega)]
      · intro hl2
        constructor
        · show (if 2 ≤ env.dbs.length then db2FromRows r2 else ([], [])).1 = []
          rw [if_neg (by omega)]
        · show (if 2 ≤ env.dbs.length then db2FromRows r2 else ([], [])).2 = []
          rw [if_neg (by omega)]
      · intro hl1
        constructor
        · show (if 1 ≤ env.dbs.length then db1FromRows r1 else ([], "")).1 = []
          rw [if_neg (by omega)]
        · show (if 1 ≤ env.dbs.length then db1FromRows r1 else ([], "")).2 = ""
          rw [if_neg (by omega)]
    · cases hq4 : env.q4 with
      | ok rows4 => exact absurd ⟨rows4, hq4⟩ h4
      | error e =>
          refine ⟨⟨(if 1 ≤ env.dbs.length then db1FromRows r1 else ([], "")).1,
            (if 1 ≤ env.dbs.length then db1FromRows r1 else ([], "")).2,
            (if 2 ≤ env.dbs.length then db2FromRows r2 else ([], [])).1,
            (if 2 ≤ env.dbs.length then db2FromRows r2 else ([], [])).2,
            if 3 ≤ env.dbs.length then parse_db3E env.q3 else [],
            sample_rec⟩, ?_, rfl, ?_, ?_, ?_⟩
          · unfold fetch_notion
            rw [h1, h2, hq4]
            have e1 : (if 1 ≤ env.dbs.length then (Except.ok r1).map db1FromRows
                else (pure (([], "") : List String × String) : Except Unit _))
                = Except.ok (if 1 ≤ env.dbs.length then db1FromRows r1
                    else ([], "")) := by
              split <;> rfl
            have e2 : (if 2 ≤ env.dbs.length then (Except.ok r2).map db2FromRows
                else (pure (([], []) : List Sector × List Stock) : Except Unit _))
                = Except.ok (if 2 ≤ env.dbs.length then db2FromRows r2
                    else ([], [])) := by
              split <;> rfl
            rw [e1, e2, if_neg (show ¬(4 ≤ env.dbs.length) from by omega)]
            rfl
          · intro h3
            show (if 3 ≤ env.dbs.length then parse_db3E env.q3 else []) = []
            rw [if_neg (by omega)]
          · intro hl2
            constructor
            · show (if 2 ≤ env.dbs.length then db2FromRows r2 else ([], [])).1 = []
              rw [if_neg (by omega)]
            · show (if 2 ≤ env.dbs.length then db2FromRows r2 else ([], [])).2 = []
              rw [if_neg (by omega)]
          · intro hl1
            constructor
            · show (if 1 ≤ env.dbs.length then db1FromRows r1 else ([], "")).1 = []
              rw [if_neg (by omega)]
            · show (if 1 ≤ env.dbs.length then db1FromRows r1 else ([], "")).2 = ""
              rw [if_neg (by omega)]
  · intro env hlen h1 h2 h3
    unfold fetch_notion
    rw [hlen, h1, h2, h3]
    rfl

/-- A 3-table environment whose discovered tables have no rows today. -/
def c5Env : NotionEnv :=
  ⟨[("a", "DB1"), ("b", "DB2"), ("c", "DB3")], .ok [], .ok [], .ok [], .ok []⟩

/-- Witness for C5: with exactly 3 discovered tables and empty queries,
recommendations are the sample set and the rest is typed-empty. -/
theorem c5_sample_only_recs_witness :
    c5Env.dbs.length = 3 ∧
    fetch_notion c5Env = .ok ⟨[], "", [], [], [], sample_rec⟩ :=
  ⟨rfl, c5_sample_only_recs.2.1 c5Env rfl rfl rfl rfl⟩

/-- A 4-table environment whose daily-summary query raises. -/
def c2NotionEnv : NotionEnv :=
  ⟨[("d1", "DB1"), ("d2", "DB2"), ("d3", "DB3"), ("d4", "DB4")],
   .error (), .ok [], .ok [], .ok []⟩

def c2Env : RunEnv :=
  ⟨"2026-02-20T00:00:00+00:00", "2026-02-20 09:00 KST", true, c2NotionEnv,
   fun _ => .error ()⟩

/-- CLAIM C2 counterexample — the daily-summary query raises while the
sector query succeeds (with zero rows, whose normalizer output would be
`[]`): instead of only the summary's own fallback being substituted, the
whole Notion fetch aborts and *every* section — including sectors and
recommendations — is replaced by the static sample document. -/
theorem c2_cex :
    c2NotionEnv.q1 = .error () ∧
    c2NotionEnv.q2 = .ok [] ∧
    db2FromRows [] = ([], []) ∧
    fetch_notion c2NotionEnv = .error () ∧
    dlookup "sectors" (mainOutput c2Env) = some (.vSectors SAMPLE_NOTION.sectors) ∧
    SAMPLE_NOTION.sectors ≠ [] ∧
    dlookup "recommendations" (mainOutput c2Env) = some (.vRecs sample_rec) := by
  refine ⟨rfl, rfl, rfl, rfl, ?_, by decide, ?_⟩
  · rw [mainOutput_eq]; rfl
  · rw [mainOutput_eq]; rfl

/-- CLAIM C2 (amended) — only the news normalizer contains its query
exception locally: with DB1/DB2/DB4 queries succeeding, a news-query
exception yields `news = []` and leaves every other normalizer's output
unchanged; but an exception in the daily-summary, sector, or
recommendations query propagates out of the Notion fetch (whole-section
sample fallback at `main`), and the market-feed half of the output is
computed independently either way. -/
theorem c2_containment_amended :
    (∀ (env : NotionEnv) (r1 r2 r4 : List Row),
        env.q1 = .ok r1 → env.q2 = .ok r2 → env.q4 = .ok r4 →
        ∃ d d', fetch_notion env = .ok d ∧
          fetch_notion ⟨env.dbs, env.q1, env.q2, .error (), env.q4⟩ = .ok d' ∧
          d'.news = [] ∧
          d'.summary = d.summary ∧ d'.market_strength = d.market_strength ∧
          d'.sectors = d.sectors ∧ d'.stocks = d.stocks ∧
          d'.recommendations = d.recommendations)
    ∧ (∀ env : NotionEnv, 1 ≤ env.dbs.length → env.q1 = .error () →
        fetch_notion env = .error ())
    ∧ (∀ (env : NotionEnv) (r1 : List Row), 2 ≤ env.dbs.length →
        env.q1 = .ok r1 → env.q2 = .error () →
        fetch_notion env = .error ())
    ∧ (∀ (env : NotionEnv) (r1 r2 : List Row), 4 ≤ env.dbs.length →
        env.q1 = .ok r1 → env.q2 = .ok r2 → env.q4 = .error () →
        fetch_notion env = .error ())
    ∧ (∀ env : RunEnv, env.notionConfigured = true →
        fetch_notion env.notion = .error () →
        notionPart env = SAMPLE_NOTION)
    ∧ (∀ env : RunEnv,
        dlookup "indices" (mainOutput env)
          = some (.vIndices (fetch_indices env.feed))) := by
  refine ⟨?_, ?_, ?_, ?_, ?_, ?_⟩
  · intro env r1 r2 r4 h1 h2 h4
    refine ⟨_, _, fetch_notion_ok env r1 r2 r4 h1 h2 h4,
      fetch_notion_ok ⟨env.dbs, env.q1, env.q2, .error (), env.q4⟩ r1 r2 r4 h1 h2 h4,
      ?_, rfl, rfl, rfl, rfl, rfl⟩
    show (if 3 ≤ env.dbs.length then parse_db3E (.error ()) else []) = []
    split <;> rfl
  · intro env hn h1
    unfold fetch_notion
    rw [h1, if_pos hn]
    rfl
  · intro env r1 hn h1 h2
    unfold fetch_notion
    rw [h1, h2, if_pos (show 1 ≤ env.dbs.length from by omega), if_pos hn]
    rfl
  · intro env r1 r2 hn h1 h2 h4
    unfold fetch_notion
    rw [h1, h2, h4, if_pos (show 1 ≤ env.dbs.length from by omega),
      if_pos (show 2 ≤ env.dbs.length from by omega), if_pos hn]
    rfl
  · intro env hc he
    simp [notionPart, hc, he]
  · intro env
    rw [mainOutput_eq]
    rfl

/-- A 4-table environment with all queries succeeding (with no rows). -/
def c2OkEnv : NotionEnv :=
  ⟨[("d1", "DB1"), ("d2", "DB2"), ("d3", "DB3"), ("d4", "DB4")],
   .ok [], .ok [], .ok [], .ok []⟩

/-- Witness for C2 (amended) at a concrete 4-table environment. -/
theorem c2_containment_amended_witness :
    ∃ d d', fetch_notion c2OkEnv = .ok d ∧
      fetch_notion ⟨c2OkEnv.dbs, c2OkEnv.q1, c2OkEnv.q2, .error (), c2OkEnv.q4⟩
        = .ok d' ∧
      d'.news = [] ∧
      d'.summary = d.summary ∧ d'.market_strength = d.market_strength ∧
      d'.sectors = d.sectors ∧ d'.stocks = d.stocks ∧
      d'.recommendations = d.recommendations :=
  c2_containment_amended.1 c2OkEnv [] [] [] rfl rfl rfl

/-- CLAIM C6 (amended) — every NewsItem emitted by the news normalizer
has empty `time`, `summary` and `tag` and a non-empty headline after
prefix stripping; but every NewsItem of the static sample fallback only
has empty `summary` — its `time` and `tag` fields are non-empty. -/
theorem c6_news_fields_amended :
    (∀ (q : Except Unit (List Row)), ∀ n ∈ parse_db3E q,
        n.time = "" ∧ n.summary = "" ∧ n.tag = "" ∧ n.headline ≠ "")
    ∧ (∀ n ∈ SAMPLE_NOTION.news, n.summary = "" ∧ n.time ≠ "" ∧ n.tag ≠ "") := by
  constructor
  · intro q n hn
    cases q with
    | error e =>
        rw [show parse_db3E (Except.error e) = [] from rfl] at hn
        cases hn
    | ok rows =>
        cases rows with
        | nil =>
            rw [show parse_db3E (Except.ok ([] : List Row)) = [] from rfl] at hn
            cases hn
        | cons row rest =>
            simp only [parse_db3E] at hn
            by_cases hr : pyStrip (get_prop row "AI 뉴스 요약" PType.rich_text) = ""
            · rw [if_pos hr] at hn
              cases hn
            · rw [if_neg hr] at hn
              rcases List.mem_map.1 hn with ⟨l, hl, hnl⟩
              rw [← hnl]
              exact ⟨rfl, rfl, rfl, segmenter_mem_ne_empty hl⟩
  · decide

def c6Env : RunEnv :=
  ⟨"t1", "t2", false, ⟨[], .ok [], .ok [], .ok [], .ok []⟩, fun _ => .error ()⟩

/-- CLAIM C6 counterexample — on the sample-fallback path (Notion not
configured) the emitted news items have non-empty `time` and `tag`,
contradicting "time, summary, and tag equal to the empty string on every
path including fallbacks". -/
theorem c6_cex :
    dlookup "news" (mainOutput c6Env) = some (.vNews SAMPLE_NOTION.news) ∧
    ∃ n ∈ SAMPLE_NOTION.news, n.time ≠ "" ∧ n.tag ≠ "" := by
  refine ⟨?_, by decide⟩
  rw [mainOutput_eq]
  rfl

def c6Q : Except Unit (List Row) :=
  .ok [[("AI 뉴스 요약", NProp.rich_text ["1. 뉴스A\n- 뉴스B"])]]

/-- Witness for C6 (amended) at a concrete one-row news response. -/
theorem c6_news_fields_amended_witness :
    (⟨"", "뉴스A", "", ""⟩ : NewsItem) ∈ parse_db3E c6Q ∧
    (("뉴스A" : String) ≠ "") :=
  ⟨by decide,
   (c6_news_fields_amended.1 c6Q ⟨"", "뉴스A", "", ""⟩ (by decide)).2.2.2⟩

/-! ## C3 — pagination -/

def c3r1 : Row := [("뉴스 제목", NProp.title ["2026-02-20 뉴스 1"])]

def c3r2 : Row := [("뉴스 제목", NProp.title ["2026-02-20 뉴스 2"])]

def c3r3 : Row := [("뉴스 제목", NProp.title ["2026-02-20 뉴스 3"])]

/-- A provider reporting `has_more = true` twice, then `false`. -/
def c3Pages : List NPage :=
  [⟨[c3r1], true, some "c1"⟩, ⟨[c3r2], true, some "c2"⟩, ⟨[c3r3], false, none⟩]

/-- CLAIM C3 counterexample — on a three-page provider the exact-equals
engine (`query_by_date`) returns all three pages' rows, but the news
table's substring-contains query (`parse_db3`, a single POST) returns
only the first page's rows: not every match mode follows pagination. -/
theorem c3_cex :
    query_by_date c3Pages = [c3r1, c3r2, c3r3] ∧
    db3Query c3Pages = [c3r1] ∧
    db3Query c3Pages ≠ query_by_date c3Pages := by
  refine ⟨rfl, rfl, ?_⟩
  rw [show query_by_date c3Pages = [c3r1, c3r2, c3r3] from rfl,
    show db3Query c3Pages = [c3r1] from rfl]
  decide

/-- CLAIM C3 (amended) — the exact-equals date query transparently
follows pagination cursors: a provider reporting `has_more = true` twice
then `false` yields the three pages' rows concatenated in order exactly
once each; the substring-contains news query issues a single request and
returns only the first response's rows. -/
theorem c3_pagination_amended :
    (∀ (a b c : List Row) (u v : Option String) (rest : List NPage),
        query_by_date (⟨a, true, u⟩ :: ⟨b, true, v⟩ :: ⟨c, false, none⟩ :: rest)
          = a ++ b ++ c)
    ∧ (∀ (p : NPage) (ps : List NPage), db3Query (p :: ps) = p.results) := by
  constructor
  · intro a b c u v rest
    simp [query_by_date, List.append_assoc]
  · intro p ps
    rfl

/-! ## C9 — index quotes -/

/-- `price = meta.get("regularMarketPrice", 0)` (line 394). -/
def yPrice (m : Meta) : ℚ := m.regularMarketPrice.getD 0

/-- `prev = chartPreviousClose or previousClose or price` (line 395). -/
def yPrev (m : Meta) : ℚ :=
  orFalsy m.chartPreviousClose (orFalsy m.previousClose (yPrice m))

/-- CLAIM C9 — on a successful feed lookup the quote satisfies
`change = price − previous-close` (rounded to the feed-specific decimal
count, as is `price`), `pct = change / previous-close × 100` rounded to 2
decimals with `pct = 0` when the previous close is 0 (no division by
zero), and `pos ↔ change ≥ 0`; e.g. price 100 and previous close 95 give
change 5.0, pct 5.26, pos true. -/
theorem c9_index_quote :
    (∀ (m : Meta) (dec : ℕ),
        (fetch_yahoo (.ok m) dec).price = roundTo (yPrice m) dec ∧
        (fetch_yahoo (.ok m) dec).change = roundTo (yPrice m - yPrev m) dec ∧
        (fetch_yahoo (.ok m) dec).pct
          = roundTo (if yPrev m = 0 then 0
              else (yPrice m - yPrev m) / yPrev m * 100) 2 ∧
        (yPrev m = 0 → (fetch_yahoo (.ok m) dec).pct = 0) ∧
        ((fetch_yahoo (.ok m) dec).pos = true ↔ 0 ≤ yPrice m - yPrev m))
    ∧ fetch_yahoo (.ok ⟨some 100, some 95, none⟩) 2 = ⟨100, 5, 5.26, true⟩
    ∧ (fetch_yahoo (.ok ⟨none, none, none⟩) 2).pct = 0 := by
  refine ⟨?_, by with_unfolding_all decide, by with_unfolding_all decide⟩
  intro m dec
  refine ⟨rfl, rfl, rfl, ?_, ?_⟩
  · intro h0
    show roundTo (if yPrev m = 0 then 0
        else (yPrice m - yPrev m) / yPrev m * 100) 2 = 0
    rw [if_pos h0]
    with_unfolding_all decide
  · show decide (0 ≤ yPrice m - yPrev m) = true ↔ 0 ≤ yPrice m - yPrev m
    exact decide_eq_true_iff

/-- Witness for C9: the zero-previous-close hypothesis discharged at an
all-absent meta object. -/
theorem c9_index_quote_witness :
    yPrev ⟨none, none, none⟩ = 0 ∧
    (fetch_yahoo (.ok ⟨none, none, none⟩) 2).pct = 0 :=
  ⟨rfl, (c9_index_quote.1 ⟨none, none, none⟩ 2).2.2.2.1 rfl⟩
